import Mathlib

/-!
Verification of the Monte Carlo experiment harness in
`src/simulations/simulate_critical_values.py`.

The harness drives three reports: asymptotic critical values, power curves,
and an empirical-size table.  The statistic evaluator, the DGP generator and
the pseudo-random stream are external collaborators (the `nearkpss` library
and `numpy`'s global random state); they are modelled here as a record of
deterministic functions over an abstract stream-state type `σ`, following the
boundary contracts of the specification.  Rational numbers stand in for the
floating-point values of the source.
-/

namespace Sim

attribute [local semireducible] Rat.add Rat.sub Rat.mul Rat.inv Rat.ofScientific

/-- Result record of the external statistic evaluator `modified_kpss_test`
(boundary contract of the spec, sect. 6): a statistic value and the 5%-level
rejection flag used by the size-table loop. -/
structure TestResult where
  statistic : ℚ
  reject_5pct : Bool

/-- Modelled from the spec: the external collaborators (the `nearkpss` library
and the global pseudo-random stream) are not under `src/`.  `σ` is the state
of the global stream; `seed n` is the state installed by `np.random.seed(n)`;
`draw k` consumes `k` i.i.d. innovations from the stream — per sect. 4.4 of
the spec the innovations consumed do not depend on the DGP parameters
`theta`/`alpha`, only the statistic's response to them does, so consumption
depends only on the requested count; `drawCount T` is the number of
innovations one DGP sample of size `T` consumes; `path` builds the
near-integrated MA sample path purely from the innovations; `statVal` is the
pure statistic value of one Wiener-approximation replication; `test` is the
pure boundary contract `modified_kpss_test`. -/
structure Collab (σ : Type) where
  seed : ℕ → σ
  draw : ℕ → σ → List ℚ × σ
  drawCount : ℕ → ℕ
  path : ℚ → ℚ → ℚ → ℚ → ℚ → List ℚ → List ℚ
  statVal : ℚ → ℚ → ℚ → String → List ℚ → ℚ
  test : List ℚ → ℚ → Bool → TestResult

variable {σ ε α : Type}

/-- `np.percentile` with its default method — linear interpolation between
order statistics, the method sect. 4.2 of the spec pins down — transcribed to
rationals.  Sort the sample; the virtual index of the `q`-th percentile is
`h = (n-1)·q/100`; interpolate linearly between the order statistics at
`⌊h⌋` and `⌊h⌋+1` (for the nonnegative `h` arising from `q ∈ [0,100]`, the
floor is `h.num.toNat / h.den` by integer division). -/
def percentileSorted (s : List ℚ) (q : ℚ) : ℚ :=
  let h : ℚ := ((s.length : ℚ) - 1) * q / 100
  let i : ℕ := h.num.toNat / h.den
  let lo := s.getD i 0
  let hi := s.getD (i + 1) lo
  lo + (h - (i : ℚ)) * (hi - lo)

/-- `np.percentile` on an arbitrary sample: sort, then interpolate. -/
def percentile (xs : List ℚ) (q : ℚ) : ℚ :=
  percentileSorted (xs.insertionSort (· ≤ ·)) q

/-- The Critical Value Extractor of the report (lines 78–80 and 105–107 of
the source): `(cv_1pct, cv_5pct, cv_10pct)` as the 99th, 95th and 90th
percentiles of a replication sample. -/
def criticalValueExtractor (stats : List ℚ) : ℚ × ℚ × ℚ :=
  (percentile stats 99, percentile stats 95, percentile stats 90)

/-- Modelled from the spec (sect. 4.1, 6): the body of
`nearkpss.critical_values.simulate_critical_values` is not under `src/`.
Each replication draws `n_steps` innovations for the Wiener-process
approximation and evaluates the statistic purely; the loop does not reset
the stream between replications. -/
def replLoop (C : Collab σ) (c c_bar alpha : ℚ) (detrend : String) (n_steps : ℕ) :
    ℕ → σ → List ℚ × σ
  | 0, s => ([], s)
  | n + 1, s =>
      let es := C.draw n_steps s
      let v := C.statVal c c_bar alpha detrend es.1
      let rest := replLoop C c c_bar alpha detrend n_steps n es.2
      (v :: rest.1, rest.2)

/-- Modelled from the spec (sect. 6, 8): the collaborator
`simulate_critical_values(c, c_bar, alpha, detrend, n_replications, n_steps,
seed)` seeds the global stream to `seed` and runs the Replication Loop.
`g` is the ambient global stream state at call time; the reseed discards it. -/
def simulate_critical_values (C : Collab σ) (c c_bar alpha : ℚ) (detrend : String)
    (n_replications n_steps seed : ℕ) (_g : σ) : List ℚ × σ :=
  replLoop C c c_bar alpha detrend n_steps n_replications (C.seed seed)

/-- `SimulationConfig` record of sect. 3 of the spec: the argument tuple of
one `simulate_critical_values` call. -/
structure SimulationConfig where
  c : ℚ
  c_bar : ℚ
  alpha : ℚ
  detrend : String
  n_replications : ℕ
  n_steps : ℕ
  seed : ℕ
  deriving DecidableEq

/-- One row of the critical-values report: the configuration passed to
`simulate_critical_values`, the resulting replication sample, and the
extracted critical-value triple (lines 72–82 resp. 100–109 of the source). -/
structure CVRow where
  config : SimulationConfig
  sample : List ℚ
  cvs : ℚ × ℚ × ℚ

/-- `c_bar_values = [5, 7, 10, 13, 15, 20]` (line 52 of the source). -/
def c_bar_values : List ℚ := [5, 7, 10, 13, 15, 20]

/-- One sweep of the critical-values report over `c_bar_values` at a fixed
detrend specification (the loop at lines 72–82 resp. 100–109): each call is at
the boundary `c = c_bar` with `alpha = 1.0`, `n_replications = 10000`,
`n_steps = 5000`, `seed = 42` (lines 48–50, 74–77, 101–103). -/
def cvSweep (C : Collab σ) (detrend : String) : List ℚ → σ → List CVRow × σ
  | [], g => ([], g)
  | cb :: rest, g =>
      let r := simulate_critical_values C cb cb 1 detrend 10000 5000 42 g
      let row : CVRow :=
        { config := { c := cb, c_bar := cb, alpha := 1, detrend := detrend,
                      n_replications := 10000, n_steps := 5000, seed := 42 },
          sample := r.1,
          cvs := criticalValueExtractor r.1 }
      let rows := cvSweep C detrend rest r.2
      (row :: rows.1, rows.2)

/-- The critical-values report `simulate_asymptotic_critical_values` (table
printing elided): the level-case sweep (`detrend="c"`) followed by the
trend-case sweep (`detrend="ct"`). -/
def simulate_asymptotic_critical_values (C : Collab σ) (g : σ) : List CVRow × σ :=
  let lvl := cvSweep C "c" c_bar_values g
  let trd := cvSweep C "ct" c_bar_values lvl.2
  (lvl.1 ++ trd.1, trd.2)

/-- Parsed command-line flags: the four `store_true` arguments added at
lines 221–236 of the source. -/
structure Args where
  all : Bool
  critical_values : Bool
  power_curves : Bool
  table1 : Bool
  deriving DecidableEq

/-- The three report-generation functions the entry point can invoke. -/
inductive Report where
  | criticalValues
  | powerCurves
  | table1
  deriving DecidableEq

/-- The dispatch logic of the `__main__` block (lines 240–254 of the source),
as the ordered list of report functions invoked for a given flag record. -/
def mainDispatch (a : Args) : List Report :=
  (if a.all || a.critical_values then [Report.criticalValues] else []) ++
  (if a.all || a.power_curves then [Report.powerCurves] else []) ++
  (if a.all || a.table1 then [Report.table1] else []) ++
  (if !(a.all || a.critical_values || a.power_curves || a.table1) then
    [Report.criticalValues]
  else [])

/-- Modelled from the spec: `nearkpss.utils.simulate_near_integrated_ma(T, c,
theta, alpha, mu, sigma)` is not under `src/`.  It consumes `drawCount T`
i.i.d. innovations from the global stream and builds the near-integrated
MA(1) sample path purely from them (spec sect. 2 and 4.4: the DGP parameters
shape the path; the stream consumption depends only on the sample size). -/
def simulate_near_integrated_ma (C : Collab σ) (T : ℕ) (c theta alpha mu sigma : ℚ)
    (s : σ) : List ℚ × σ :=
  let es := C.draw (C.drawCount T) s
  (C.path c theta alpha mu sigma es.1, es.2)

/-- The boundary contract `modified_kpss_test(y, c_bar, compute_pvalue)` of
spec sect. 6: pure in the sample path and its configuration. -/
def modified_kpss_test (C : Collab σ) (y : List ℚ) (c_bar : ℚ)
    (compute_pvalue : Bool) : TestResult :=
  C.test y c_bar compute_pvalue

/-- Inner replication loop of one size-table cell (lines 196–200 of the
source): `n` times, generate a DGP sample with `T = 200`, `c = 10`,
`mu = 0.0`, `sigma = 1.0`, evaluate `modified_kpss_test` at `c_bar = 10.0`
with `compute_pvalue = False`, and count the replications whose
`reject_5pct` flag is true.  Returns the count and the stream state left
behind. -/
def table1Loop (C : Collab σ) (theta alpha : ℚ) : ℕ → σ → ℕ × σ
  | 0, s => (0, s)
  | n + 1, s =>
      let ys := simulate_near_integrated_ma C 200 10 theta alpha 0 1 s
      let result := modified_kpss_test C ys.1 10 false
      let rest := table1Loop C theta alpha n ys.2
      ((if result.reject_5pct then 1 else 0) + rest.1, rest.2)

/-- One cell of the size table (lines 192–203 of the source): reseed the
global stream to the fixed value 42, run `n_sims = 1000` replications, and
report `empirical_size = rejections / n_sims`.  The ambient stream state
`_g` at cell entry is discarded by the reseed. -/
def table1Cell (C : Collab σ) (theta alpha : ℚ) (_g : σ) : ℚ × σ :=
  let r := table1Loop C theta alpha 1000 (C.seed 42)
  ((r.1 : ℚ) / 1000, r.2)

/-- `theta_values = [0.0, 0.6, -0.6]` (line 184 of the source). -/
def theta_values : List ℚ := [0, 6 / 10, -6 / 10]

/-- `alpha_values = [1, 3, 5]` (line 185 of the source). -/
def alpha_values : List ℚ := [1, 3, 5]

/-- One row of the size table: the inner sweep over `alpha_values` at fixed
`theta` (lines 192–203 of the source). -/
def table1Row (C : Collab σ) (theta : ℚ) : List ℚ → σ → List ℚ × σ
  | [], g => ([], g)
  | a :: rest, g =>
      let cell := table1Cell C theta a g
      let rows := table1Row C theta rest cell.2
      (cell.1 :: rows.1, rows.2)

/-- The size-table report `simulate_table1_sizes` (printing elided): one row
of empirical sizes per `theta` in `theta_values` (lines 190–205). -/
def simulate_table1_sizes (C : Collab σ) : List ℚ → σ → List (List ℚ) × σ
  | [], g => ([], g)
  | th :: rest, g =>
      let row := table1Row C th alpha_values g
      let rows := simulate_table1_sizes C rest row.2
      (row.1 :: rows.1, rows.2)

/-- The per-replication 5%-level rejection flags of one cell's loop, read off
the same generate-then-evaluate trajectory as `table1Loop`. -/
def table1Flags (C : Collab σ) (theta alpha : ℚ) : ℕ → σ → List Bool
  | 0, _ => []
  | n + 1, s =>
      let ys := simulate_near_integrated_ma C 200 10 theta alpha 0 1 s
      let result := modified_kpss_test C ys.1 10 false
      result.reject_5pct :: table1Flags C theta alpha n ys.2

/-- The per-replication innovation blocks one cell's loop consumes from the
stream: at each replication, the innovations the DGP call reads at the
current state, the recursion advancing by the DGP call's output state. -/
def table1Innov (C : Collab σ) (theta alpha : ℚ) : ℕ → σ → List (List ℚ)
  | 0, _ => []
  | n + 1, s =>
      let es := C.draw (C.drawCount 200) s
      let ys := simulate_near_integrated_ma C 200 10 theta alpha 0 1 s
      es.1 :: table1Innov C theta alpha n ys.2

/-- The innovation blocks consumed by one full size-table cell, which starts
from the reseeded state `C.seed 42` and runs `n_sims = 1000` replications. -/
def table1CellInnov (C : Collab σ) (theta alpha : ℚ) : List (List ℚ) :=
  table1Innov C theta alpha 1000 (C.seed 42)

/-- The replication sample of one `simulate_critical_values` call, read off
with the configuration alone: the internal reseed makes the sample
independent of the ambient stream state (claim C5). -/
def sampleOf (C : Collab σ) (c c_bar alpha : ℚ) (detrend : String)
    (n_replications n_steps seed : ℕ) : List ℚ :=
  (replLoop C c c_bar alpha detrend n_steps n_replications (C.seed seed)).1

/-- Fraction of replications whose statistic exceeds the critical value
(spec sect. 4.3, sweep phase). -/
def rejectionRate (stats : List ℚ) (cv : ℚ) : ℚ :=
  ((stats.countP fun x => decide (cv < x)) : ℚ) / (stats.length : ℚ)

/-- Modelled from the spec: `nearkpss.critical_values.simulate_power_and_size`
is not under `src/`.  Per sect. 4.3 of the spec: calibration phase — run the
Replication Loop at the reference grid value (the head of `c_values`; the
driver's grid starts at the reference point `c = 0` of the paper's Figure 1)
and take `cv` as the `(1 - nominal_power)`-quantile of that reference
sample; sweep phase — for every grid value rerun the Replication Loop with
the same fixed seed and report the fraction of statistics exceeding the one
calibrated `cv`. -/
def simulate_power_and_size (C : Collab σ) (c_values : List ℚ)
    (c_bar alpha nominal_power : ℚ) (detrend : String)
    (n_replications n_steps seed : ℕ) : List ℚ × ℚ :=
  let ref := c_values.headD 0
  let refStats := sampleOf C ref c_bar alpha detrend n_replications n_steps seed
  let cv := percentile refStats ((1 - nominal_power) * 100)
  (c_values.map fun c =>
    rejectionRate (sampleOf C c c_bar alpha detrend n_replications n_steps seed) cv,
   cv)

/-- `c_values = np.arange(0, 11)` of the power-curves report (line 132). -/
def c_values_grid : List ℚ := [0, 1, 2, 3, 4, 5, 6, 7, 8, 9, 10]

/-- The power-curves report `simulate_power_curves` (printing elided): for
each `alpha ∈ [1, 2, 3]`, the rejection-rate curve and calibrated critical
value at `c_bar = 10.0`, `nominal_power = 0.50`, `detrend = "c"`,
`n_replications = 5000`, `n_steps = 2000`, `seed = 42`
(lines 132–145 of the source). -/
def simulate_power_curves (C : Collab σ) : List (List ℚ × ℚ) :=
  [1, 2, 3].map fun alpha =>
    simulate_power_and_size C c_values_grid 10 alpha (1 / 2) "c" 5000 2000 42

/-- A concrete collaborator over a counter state: each draw returns the
current counter and advances it, and the statistic of a replication is the
first innovation, so replication samples are strictly increasing.  Used to
instantiate hypotheses of the claims at a computable input. -/
def counterCollab : Collab ℕ where
  seed := fun n => n
  draw := fun _ s => ([(s : ℚ)], s + 1)
  drawCount := fun T => T
  path := fun _ _ _ _ _ e => e
  statVal := fun _ _ _ _ e => e.headD 0
  test := fun y _ _ => ⟨y.headD 0, false⟩

/-- Fallible variants of the collaborators of the size-table loop: a Python
call either returns a value or raises an exception of type `ε`
(`Except.error`), shallow-embedding the exception semantics of the
interpreter.  `dgp` is the fallible `simulate_near_integrated_ma`, `test`
the fallible `modified_kpss_test`. -/
structure CollabE (ε σ : Type) where
  seed : ℕ → σ
  dgp : ℕ → ℚ → ℚ → ℚ → ℚ → ℚ → σ → Except ε (List ℚ × σ)
  test : List ℚ → ℚ → Bool → Except ε TestResult

/-- Whether a fallible computation returned a value rather than raising. -/
def isOkE : Except ε α → Bool
  | Except.ok _ => true
  | Except.error _ => false

/-- The size-table cell loop (lines 196–200 of the source) with fallible
collaborators: each replication generates, then evaluates; an exception at
either step aborts the loop.  There is no `try`/`except` anywhere in the
source, so errors pass through unhandled. -/
def table1LoopE (C : CollabE ε σ) (theta alpha : ℚ) : ℕ → σ → Except ε (ℕ × σ)
  | 0, s => Except.ok (0, s)
  | n + 1, s =>
      (C.dgp 200 10 theta alpha 0 1 s).bind fun ys =>
        (C.test ys.1 10 false).bind fun result =>
          (table1LoopE C theta alpha n ys.2).bind fun rest =>
            Except.ok ((if result.reject_5pct then 1 else 0) + rest.1, rest.2)

/-- One fallible size-table cell (lines 192–203): reseed to 42, run 1000
replications, report `rejections / n_sims` — or propagate the first
exception. -/
def table1CellE (C : CollabE ε σ) (theta alpha : ℚ) (_g : σ) : Except ε (ℚ × σ) :=
  (table1LoopE C theta alpha 1000 (C.seed 42)).bind fun r =>
    Except.ok ((r.1 : ℚ) / 1000, r.2)

/-- One fallible row of the size table: the sweep over `alpha_values` at
fixed `theta`; a failing cell aborts the row. -/
def table1RowE (C : CollabE ε σ) (theta : ℚ) : List ℚ → σ → Except ε (List ℚ × σ)
  | [], g => Except.ok ([], g)
  | a :: rest, g =>
      (table1CellE C theta a g).bind fun cell =>
        (table1RowE C theta rest cell.2).bind fun rows =>
          Except.ok (cell.1 :: rows.1, rows.2)

/-- The fallible size-table report (lines 190–205): one row per `theta`; a
failing row aborts the report, so no partial table is ever returned. -/
def simulate_table1_sizesE (C : CollabE ε σ) : List ℚ → σ → Except ε (List (List ℚ) × σ)
  | [], g => Except.ok ([], g)
  | th :: rest, g =>
      (table1RowE C th alpha_values g).bind fun row =>
        (simulate_table1_sizesE C rest row.2).bind fun rows =>
          Except.ok (row.1 :: rows.1, rows.2)

/-- A collaborator whose DGP generation always raises. -/
def failDgpCollab : CollabE Unit Unit where
  seed := fun _ => ()
  dgp := fun _ _ _ _ _ _ _ => Except.error ()
  test := fun _ _ _ => Except.ok ⟨0, false⟩

/-- A collaborator whose DGP succeeds but whose statistic evaluation always
raises. -/
def failTestCollab : CollabE Unit Unit where
  seed := fun _ => ()
  dgp := fun _ _ _ _ _ _ s => Except.ok ([], s)
  test := fun _ _ _ => Except.error ()

/-- The rejection count of the cell loop is the number of true flags on the
same trajectory. -/
theorem table1Loop_countP (C : Collab σ) (theta alpha : ℚ) :
    ∀ (n : ℕ) (s : σ),
    (table1Loop C theta alpha n s).1 =
      (table1Flags C theta alpha n s).countP id := by
  intro n
  induction n with
  | zero => intro s; rfl
  | succ n ih =>
      intro s
      simp only [table1Loop, table1Flags, List.countP_cons, ih]
      cases h : (modified_kpss_test C
          (simulate_near_integrated_ma C 200 10 theta alpha 0 1 s).1 10
          false).reject_5pct <;> simp [h, Nat.add_comm]

/-- The cell loop produces one rejection flag per replication. -/
theorem table1Flags_length (C : Collab σ) (theta alpha : ℚ) :
    ∀ (n : ℕ) (s : σ), (table1Flags C theta alpha n s).length = n := by
  intro n
  induction n with
  | zero => intro s; rfl
  | succ n ih => intro s; simp [table1Flags, ih]

/-- The rejection count never exceeds the number of replications. -/
theorem table1Loop_le (C : Collab σ) (theta alpha : ℚ) :
    ∀ (n : ℕ) (s : σ), (table1Loop C theta alpha n s).1 ≤ n := by
  intro n
  induction n with
  | zero => intro s; exact Nat.le_refl 0
  | succ n ih =>
      intro s
      have h := ih (simulate_near_integrated_ma C 200 10 theta alpha 0 1 s).2
      simp only [table1Loop]
      cases (modified_kpss_test C
          (simulate_near_integrated_ma C 200 10 theta alpha 0 1 s).1 10
          false).reject_5pct <;> simp <;> omega

/-- The innovation blocks a cell loop consumes do not depend on the DGP
parameters `theta` and `alpha`: the stream is advanced only by the draws,
whose count is fixed by the sample size `T = 200`. -/
theorem table1Innov_indep (C : Collab σ) (theta alpha theta' alpha' : ℚ) :
    ∀ (n : ℕ) (s : σ),
    table1Innov C theta alpha n s = table1Innov C theta' alpha' n s := by
  intro n
  induction n with
  | zero => intro s; rfl
  | succ n ih =>
      intro s
      simp only [table1Innov, simulate_near_integrated_ma]
      exact congrArg _ (ih _)

/-- The replication sample has one entry per replication. -/
theorem replLoop_length (C : Collab σ) (c c_bar alpha : ℚ) (detrend : String)
    (n_steps : ℕ) : ∀ (n : ℕ) (s : σ),
    (replLoop C c c_bar alpha detrend n_steps n s).1.length = n := by
  intro n
  induction n with
  | zero => intro s; rfl
  | succ n ih => intro s; simp [replLoop, ih]

/-- The configurations called by one sweep of the critical-values report. -/
theorem cvSweep_map_config (C : Collab σ) (detrend : String) :
    ∀ (l : List ℚ) (g : σ),
    ((cvSweep C detrend l g).1).map (fun r => r.config) =
      l.map (fun cb =>
        { c := cb, c_bar := cb, alpha := 1, detrend := detrend,
          n_replications := 10000, n_steps := 5000, seed := 42 }) := by
  intro l
  induction l with
  | nil => intro g; rfl
  | cons cb rest ih => intro g; simp [cvSweep, ih]

/-- Claim C1: the Critical Value Extractor returns the triple of 99th, 95th
and 90th percentiles of the sample, computed by linear interpolation between
order statistics; on the synthetic sample `[1..100]` it returns exactly
`(99.01, 95.05, 90.1)` — in particular the 95th percentile is `95.05`. -/
theorem claim_C1_critical_value_extractor :
    (∀ stats : List ℚ, criticalValueExtractor stats =
      (percentile stats 99, percentile stats 95, percentile stats 90)) ∧
    criticalValueExtractor ((List.range 100).map fun i => ((i : ℚ) + 1)) =
      (9901 / 100, 1901 / 20, 901 / 10) ∧
    percentile ((List.range 100).map fun i => ((i : ℚ) + 1)) 95 = 9505 / 100 := by
  refine ⟨fun _ => rfl, by decide, by decide⟩

/-- Claim C6: every replication sample of the critical-values report is
generated at the boundary `c = c_bar`: the report makes exactly twelve calls,
one per `c_bar ∈ [5, 7, 10, 13, 15, 20]` and `detrend ∈ {"c", "ct"}`, and
every call passes `c = c_bar`, `alpha = 1.0`, `n_replications = 10000`,
`n_steps = 5000`, `seed = 42`. -/
theorem claim_C6_boundary_configs (C : Collab σ) (g : σ) :
    ((simulate_asymptotic_critical_values C g).1).map (fun r => r.config) =
      [⟨5, 5, 1, "c", 10000, 5000, 42⟩, ⟨7, 7, 1, "c", 10000, 5000, 42⟩,
       ⟨10, 10, 1, "c", 10000, 5000, 42⟩, ⟨13, 13, 1, "c", 10000, 5000, 42⟩,
       ⟨15, 15, 1, "c", 10000, 5000, 42⟩, ⟨20, 20, 1, "c", 10000, 5000, 42⟩,
       ⟨5, 5, 1, "ct", 10000, 5000, 42⟩, ⟨7, 7, 1, "ct", 10000, 5000, 42⟩,
       ⟨10, 10, 1, "ct", 10000, 5000, 42⟩, ⟨13, 13, 1, "ct", 10000, 5000, 42⟩,
       ⟨15, 15, 1, "ct", 10000, 5000, 42⟩, ⟨20, 20, 1, "ct", 10000, 5000, 42⟩] := by
  simp [simulate_asymptotic_critical_values, cvSweep_map_config, c_bar_values]

/-- Claim C8: with no flags the entry point runs exactly the critical-values
report; each single flag triggers exactly its one report; `--all` triggers
all three in order. -/
theorem claim_C8_cli_dispatch :
    mainDispatch ⟨false, false, false, false⟩ = [Report.criticalValues] ∧
    mainDispatch ⟨false, true, false, false⟩ = [Report.criticalValues] ∧
    mainDispatch ⟨false, false, true, false⟩ = [Report.powerCurves] ∧
    mainDispatch ⟨false, false, false, true⟩ = [Report.table1] ∧
    mainDispatch ⟨true, false, false, false⟩ =
      [Report.criticalValues, Report.powerCurves, Report.table1] := by
  decide

/-- Claim C2: every cell of the size table reports
`empirical_size = rejections / n_sims`, where `rejections` counts, among
exactly `n_sims = 1000` generate-then-evaluate replications, those whose
`reject_5pct` flag is true. -/
theorem claim_C2_empirical_size (C : Collab σ) (theta alpha : ℚ) (g : σ) :
    (table1Cell C theta alpha g).1 =
      ((table1Flags C theta alpha 1000 (C.seed 42)).countP id : ℚ) / 1000 ∧
    (table1Flags C theta alpha 1000 (C.seed 42)).length = 1000 := by
  constructor
  · simp [table1Cell, table1Loop_countP]
  · exact table1Flags_length C theta alpha 1000 (C.seed 42)

/-- Claim C3: the stream is reseeded to 42 before every cell, so for a fixed
`theta`, running a cell with one `alpha` and with another consumes the
identical sequence of underlying pseudo-random innovations. -/
theorem claim_C3_reseed_replay (C : Collab σ) (theta alpha₁ alpha₂ : ℚ) :
    table1CellInnov C theta alpha₁ = table1CellInnov C theta alpha₂ :=
  table1Innov_indep C theta alpha₁ theta alpha₂ 1000 (C.seed 42)

/-- Claim C5: two invocations of the Replication Loop with the same
`(c, c_bar, alpha, detrend, n_replications, n_steps, seed)` — whatever the
ambient stream states `g₁`, `g₂` at call time — produce identical
replication samples of length `n_replications`. -/
theorem claim_C5_reproducibility (C : Collab σ) (c c_bar alpha : ℚ)
    (detrend : String) (n_replications n_steps seed : ℕ) (g₁ g₂ : σ) :
    (simulate_critical_values C c c_bar alpha detrend
        n_replications n_steps seed g₁).1 =
      (simulate_critical_values C c c_bar alpha detrend
        n_replications n_steps seed g₂).1 ∧
    (simulate_critical_values C c c_bar alpha detrend
        n_replications n_steps seed g₁).1.length = n_replications :=
  ⟨rfl, replLoop_length C c c_bar alpha detrend n_steps n_replications (C.seed seed)⟩

/-- Claim C9: because every cell reseeds to 42 unconditionally, all nine
`(theta, alpha)` cells of the size table consume the identical underlying
innovation sequence — across `theta` rows as well, not only across `alpha`
within a row. -/
theorem claim_C9_replay_all_cells (C : Collab σ) :
    theta_values.map (fun th => alpha_values.map (fun a => table1CellInnov C th a)) =
      List.replicate 3 (List.replicate 3 (table1CellInnov C 0 1)) := by
  have h : ∀ th a : ℚ, table1CellInnov C th a = table1CellInnov C 0 1 := by
    intro th a
    exact table1Innov_indep C th a 0 1 1000 (C.seed 42)
  simp [theta_values, alpha_values, h, List.replicate]

/-- Claim C10: every reported empirical size is an integer multiple `k/1000`
of `1/n_sims` with `k ≤ 1000`, hence lies in `[0, 1]`: the loop runs exactly
1000 iterations and increments the rejection count at most once each. -/
theorem claim_C10_size_in_unit_interval (C : Collab σ) (theta alpha : ℚ) (g : σ) :
    ∃ k : ℕ, k ≤ 1000 ∧ (table1Cell C theta alpha g).1 = (k : ℚ) / 1000 ∧
      0 ≤ (table1Cell C theta alpha g).1 ∧ (table1Cell C theta alpha g).1 ≤ 1 := by
  refine ⟨(table1Loop C theta alpha 1000 (C.seed 42)).1,
    table1Loop_le C theta alpha 1000 (C.seed 42), rfl, ?_, ?_⟩
  · have : (0 : ℚ) ≤ ((table1Loop C theta alpha 1000 (C.seed 42)).1 : ℚ) := by
      exact_mod_cast Nat.zero_le _
    simpa [table1Cell] using div_nonneg this (by norm_num)
  · have h : ((table1Loop C theta alpha 1000 (C.seed 42)).1 : ℚ) ≤ 1000 := by
      exact_mod_cast table1Loop_le C theta alpha 1000 (C.seed 42)
    simp only [table1Cell]
    rw [div_le_one (by norm_num)]
    exact h

/-- Counting elements above a threshold that splits a list at position `k`:
if the first `k` elements are `≤ q` and the rest are `> q`, the count of
elements exceeding `q` is `length - k`. -/
theorem countP_gt_split (l : List ℚ) (q : ℚ) (k : ℕ)
    (h1 : ∀ x ∈ l.take k, x ≤ q) (h2 : ∀ x ∈ l.drop k, q < x) :
    (l.countP fun x => decide (q < x)) = l.length - k := by
  conv_lhs => rw [← List.take_append_drop k l]
  rw [List.countP_append]
  have ht : ((l.take k).countP fun x => decide (q < x)) = 0 := by
    rw [List.countP_eq_zero]
    intro a ha
    simpa using not_lt.2 (h1 a ha)
  have hd : ((l.drop k).countP fun x => decide (q < x)) = (l.drop k).length := by
    rw [List.countP_eq_length]
    intro a ha
    simpa using h2 a ha
  rw [ht, hd, List.length_drop]
  omega

/-- In a sorted duplicate-free list, entries at increasing positions are
strictly increasing. -/
theorem sorted_nodup_getElem_lt (s : List ℚ) (hs : s.Sorted (· ≤ ·))
    (hnd : s.Nodup) (i j : ℕ) (hi : i < s.length) (hj : j < s.length)
    (hij : i < j) : s[i] < s[j] := by
  have hle := List.pairwise_iff_getElem.mp hs i j hi hj hij
  have hne := List.pairwise_iff_getElem.mp hnd i j hi hj hij
  exact lt_of_le_of_ne hle hne

/-- Evaluating the interpolated percentile at `q = 50` on a sorted sample of
length 5000: the virtual index is `2499.5`, so the result is the average of
the order statistics at positions 2499 and 2500. -/
theorem percentileSorted_median (s : List ℚ) (hlen : s.length = 5000) :
    percentileSorted s 50 = (s[2499] + s[2500]) / 2 := by
  have h1 : 2499 < s.length := by omega
  have h2 : 2500 < s.length := by omega
  simp only [percentileSorted]
  have hh : ((s.length : ℚ) - 1) * 50 / 100 = 4999 / 2 := by
    rw [hlen]
    norm_num
  rw [hh]
  have hi : (4999 / 2 : ℚ).num.toNat / (4999 / 2 : ℚ).den = 2499 := by decide
  rw [hi]
  have h21 : (2499 : ℕ) + 1 = 2500 := rfl
  rw [List.getD_eq_getElem s 0 h1, h21, List.getD_eq_getElem s _ h2]
  push_cast
  ring

/-- Median split: on a duplicate-free sample of 5000 statistics, exactly half
exceed the interpolated 50th percentile, so the rejection rate recomputed at
the calibrated critical value is exactly 1/2. -/
theorem median_rejection_rate (l : List ℚ) (hlen : l.length = 5000)
    (hnd : l.Nodup) : rejectionRate l (percentile l 50) = 1 / 2 := by
  set s := l.insertionSort (· ≤ ·) with hs_def
  have hperm : s.Perm l := List.perm_insertionSort _ l
  have hsorted : s.Sorted (· ≤ ·) := List.sorted_insertionSort _ l
  have hslen : s.length = 5000 := by rw [hs_def, List.length_insertionSort, hlen]
  have hnds : s.Nodup := hperm.nodup_iff.mpr hnd
  have hb1 : 2499 < s.length := by omega
  have hb2 : 2500 < s.length := by omega
  have hab : s[2499] < s[2500] :=
    sorted_nodup_getElem_lt s hsorted hnds 2499 2500 hb1 hb2 (by norm_num)
  have hq : percentile l 50 = (s[2499] + s[2500]) / 2 := by
    rw [percentile]
    exact percentileSorted_median s hslen
  have hq1 : s[2499] < (s[2499] + s[2500]) / 2 := by linarith
  have hq2 : (s[2499] + s[2500]) / 2 < s[2500] := by linarith
  have hcount : (s.countP fun x => decide ((s[2499] + s[2500]) / 2 < x)) =
      s.length - 2500 := by
    apply countP_gt_split
    · intro x hx
      obtain ⟨i, hilen, hxe⟩ := List.mem_iff_getElem.mp hx
      have hitake : i < 2500 := by
        have h := hilen
        simp only [List.length_take] at h
        omega
      rw [List.getElem_take] at hxe
      subst hxe
      have hile : s[i] ≤ s[2499] := by
        rcases Nat.lt_or_ge i 2499 with hcase | hcase
        · exact le_of_lt (sorted_nodup_getElem_lt s hsorted hnds i 2499
            (by omega) hb1 hcase)
        · have : i = 2499 := by omega
          subst this
          exact le_refl _
      linarith
    · intro x hx
      obtain ⟨j, hjlen, hxe⟩ := List.mem_iff_getElem.mp hx
      rw [List.getElem_drop] at hxe
      subst hxe
      have hjb : 2500 + j < s.length := by
        have h := hjlen
        simp only [List.length_drop] at h
        omega
      have hge : s[2500] ≤ s[2500 + j] := by
        rcases Nat.eq_zero_or_pos j with hj0 | hj0
        · subst hj0
          exact le_refl _
        · exact le_of_lt (sorted_nodup_getElem_lt s hsorted hnds 2500
            (2500 + j) hb2 hjb (by omega))
      linarith
  have hcount' : (l.countP fun x => decide ((s[2499] + s[2500]) / 2 < x)) = 2500 := by
    rw [← hperm.countP_eq, hcount, hslen]
  simp only [rejectionRate, hq, hcount', hlen]
  norm_num

/-- The deterministic replication sample has one entry per replication. -/
theorem sampleOf_length (C : Collab σ) (c c_bar alpha : ℚ) (detrend : String)
    (n_replications n_steps seed : ℕ) :
    (sampleOf C c c_bar alpha detrend n_replications n_steps seed).length =
      n_replications :=
  replLoop_length C c c_bar alpha detrend n_steps n_replications (C.seed seed)

/-- On the counter collaborator the replication sample enumerates successive
counter values. -/
theorem counterCollab_replLoop (c c_bar alpha : ℚ) (detrend : String)
    (n_steps : ℕ) : ∀ (n t : ℕ),
    (replLoop counterCollab c c_bar alpha detrend n_steps n t).1 =
      (List.range n).map (fun i => ((t + i : ℕ) : ℚ)) := by
  intro n
  induction n with
  | zero => intro t; rfl
  | succ n ih =>
      intro t
      have step : (replLoop counterCollab c c_bar alpha detrend n_steps (n + 1) t).1 =
          ((t : ℕ) : ℚ) ::
            (replLoop counterCollab c c_bar alpha detrend n_steps n (t + 1)).1 := rfl
      rw [step, ih (t + 1), List.range_succ_eq_map, List.map_cons, List.map_map]
      have harg : ((fun i => ((t + i : ℕ) : ℚ)) ∘ Nat.succ) =
          (fun i => (((t + 1) + i : ℕ) : ℚ)) := by
        funext i
        simp only [Function.comp]
        congr 1
        omega
      rw [harg]
      simp

/-- The counter collaborator's reference sample for the power-curve
calibration has no duplicate statistics. -/
theorem counterCollab_sample_nodup :
    (sampleOf counterCollab 0 10 1 "c" 5000 2000 42).Nodup := by
  have h : sampleOf counterCollab 0 10 1 "c" 5000 2000 42 =
      (List.range 5000).map (fun i => ((42 + i : ℕ) : ℚ)) := by
    rw [sampleOf]
    exact counterCollab_replLoop 0 10 1 "c" 2000 5000 42
  rw [h]
  refine List.Nodup.map ?_ (List.nodup_range 5000)
  intro i j hij
  have h2 : (42 + i : ℕ) = (42 + j : ℕ) := Nat.cast_injective hij
  omega

/-- Claim C4: in the Power/Size Calibrator, the calibrated critical value is
the `(1 - nominal)`-quantile of the reference-point replication sample, and
the rejection rate recomputed at the reference grid value with that critical
value equals the nominal target 0.50 exactly, provided the reference sample
has no ties (the almost-sure case for a continuous statistic). -/
theorem claim_C4_calibration_identity (C : Collab σ) (alpha : ℚ)
    (hnd : (sampleOf C 0 10 alpha "c" 5000 2000 42).Nodup) :
    (simulate_power_and_size C c_values_grid 10 alpha (1 / 2) "c" 5000 2000 42).2 =
      percentile (sampleOf C 0 10 alpha "c" 5000 2000 42) 50 ∧
    (simulate_power_and_size C c_values_grid 10 alpha (1 / 2) "c"
        5000 2000 42).1.headD 0 = 1 / 2 := by
  have hlen : (sampleOf C 0 10 alpha "c" 5000 2000 42).length = 5000 :=
    sampleOf_length C 0 10 alpha "c" 5000 2000 42
  have h50 : ((1 : ℚ) - 1 / 2) * 100 = 50 := by norm_num
  constructor
  · simp only [simulate_power_and_size, c_values_grid, List.headD]
    rw [h50]
  · simp only [simulate_power_and_size, c_values_grid, List.map, List.headD]
    rw [h50]
    exact median_rejection_rate _ hlen hnd

/-- Witness for claim C4: the counter collaborator satisfies the no-ties
hypothesis, and the calibration identity holds for it. -/
theorem claim_C4_calibration_identity_witness :
    (sampleOf counterCollab 0 10 1 "c" 5000 2000 42).Nodup ∧
    ((simulate_power_and_size counterCollab c_values_grid 10 1 (1 / 2) "c"
        5000 2000 42).2 =
      percentile (sampleOf counterCollab 0 10 1 "c" 5000 2000 42) 50 ∧
     (simulate_power_and_size counterCollab c_values_grid 10 1 (1 / 2) "c"
        5000 2000 42).1.headD 0 = 1 / 2) :=
  ⟨counterCollab_sample_nodup,
   claim_C4_calibration_identity counterCollab 1 counterCollab_sample_nodup⟩

/-- Binding a successful fallible computation applies the continuation. -/
theorem exceptBind_ok {β : Type} (x : α) (f : α → Except ε β) :
    (Except.ok x).bind f = f x := rfl

/-- Binding a raised exception propagates it unchanged. -/
theorem exceptBind_error {β : Type} (e : ε) (f : α → Except ε β) :
    (Except.error e).bind f = (Except.error e : Except ε β) := rfl

/-- One unfolding of the fallible cell loop. -/
theorem table1LoopE_succ (C : CollabE ε σ) (theta alpha : ℚ) (n : ℕ) (s : σ) :
    table1LoopE C theta alpha (n + 1) s =
      (C.dgp 200 10 theta alpha 0 1 s).bind fun ys =>
        (C.test ys.1 10 false).bind fun result =>
          (table1LoopE C theta alpha n ys.2).bind fun rest =>
            Except.ok ((if result.reject_5pct then 1 else 0) + rest.1, rest.2) := rfl

/-- A size-table cell ignores the ambient stream state: it reseeds first. -/
theorem table1CellE_state_irrel (C : CollabE ε σ) (theta alpha : ℚ) (g g' : σ) :
    table1CellE C theta alpha g = table1CellE C theta alpha g' := rfl

/-- If the cell at some `alpha` in the row raises, the whole row raises. -/
theorem table1RowE_not_ok (C : CollabE ε σ) (theta alpha : ℚ) (e : ε) (g' : σ)
    (hcell : table1CellE C theta alpha g' = Except.error e) :
    ∀ (l : List ℚ) (g : σ), alpha ∈ l →
    isOkE (table1RowE C theta l g) = false := by
  intro l
  induction l with
  | nil => intro g h; simp at h
  | cons a rest ih =>
      intro g hmem
      cases hc : table1CellE C theta a g with
      | error e1 => simp [table1RowE, hc, exceptBind_error, isOkE]
      | ok cell =>
          rcases List.mem_cons.mp hmem with heq | hmem'
          · subst heq
            rw [table1CellE_state_irrel C theta alpha g g', hcell] at hc
            exact absurd hc (by simp)
          · have h2 := ih cell.2 hmem'
            simp only [table1RowE, hc, exceptBind_ok]
            cases hr : table1RowE C theta rest cell.2 with
            | error e2 => simp [exceptBind_error, isOkE]
            | ok rows =>
                rw [hr] at h2
                simp [isOkE] at h2

/-- If the row at some `theta` raises (whatever the entry state), the whole
report raises: no partial table is returned. -/
theorem simulate_table1_sizesE_not_ok (C : CollabE ε σ) (theta : ℚ)
    (hrow : ∀ g : σ, isOkE (table1RowE C theta alpha_values g) = false) :
    ∀ (l : List ℚ) (g : σ), theta ∈ l →
    isOkE (simulate_table1_sizesE C l g) = false := by
  intro l
  induction l with
  | nil => intro g h; simp at h
  | cons th rest ih =>
      intro g hmem
      rcases List.mem_cons.mp hmem with heq | hmem'
      · subst heq
        have h2 := hrow g
        simp only [simulate_table1_sizesE]
        cases hr : table1RowE C theta alpha_values g with
        | error e2 => simp [exceptBind_error, isOkE]
        | ok row =>
            rw [hr] at h2
            simp [isOkE] at h2
      · simp only [simulate_table1_sizesE]
        cases hr : table1RowE C th alpha_values g with
        | error e2 => simp [exceptBind_error, isOkE]
        | ok row =>
            have h2 := ih row.2 hmem'
            simp only [exceptBind_ok]
            cases hs : simulate_table1_sizesE C rest row.2 with
            | error e3 => simp [exceptBind_error, isOkE]
            | ok rows =>
                rw [hs] at h2
                simp [isOkE] at h2

/-- Claim C7: the replication and sweep loops catch no collaborator errors.
First conjunct: if the first `k` replications of a cell succeed and the
`(k+1)`-th DGP generation raises, the cell loop — run for any larger
replication count — propagates exactly that error.  Second conjunct: the
same when the `(k+1)`-th statistic evaluation raises.  Third conjunct: if
any cell of the size-table grid raises, the whole report raises — no
partial result is reported. -/
theorem claim_C7_error_propagation (C : CollabE ε σ) (theta alpha : ℚ) :
    (∀ (k m : ℕ) (s : σ) (r : ℕ × σ) (e : ε),
      table1LoopE C theta alpha k s = Except.ok r →
      C.dgp 200 10 theta alpha 0 1 r.2 = Except.error e →
      table1LoopE C theta alpha (k + m + 1) s = Except.error e) ∧
    (∀ (k m : ℕ) (s : σ) (r : ℕ × σ) (ys : List ℚ × σ) (e : ε),
      table1LoopE C theta alpha k s = Except.ok r →
      C.dgp 200 10 theta alpha 0 1 r.2 = Except.ok ys →
      C.test ys.1 10 false = Except.error e →
      table1LoopE C theta alpha (k + m + 1) s = Except.error e) ∧
    (∀ (g g' : σ) (e : ε),
      theta ∈ theta_values → alpha ∈ alpha_values →
      table1CellE C theta alpha g' = Except.error e →
      isOkE (simulate_table1_sizesE C theta_values g) = false) := by
  have hdgp_prop : ∀ (k : ℕ) (m : ℕ) (s : σ) (r : ℕ × σ) (e : ε),
      table1LoopE C theta alpha k s = Except.ok r →
      C.dgp 200 10 theta alpha 0 1 r.2 = Except.error e →
      table1LoopE C theta alpha (k + m + 1) s = Except.error e := by
    intro k
    induction k with
    | zero =>
        intro m s r e hk hdg
        have hr : (0, s) = r := Except.ok.inj hk
        rw [← hr] at hdg
        have hm : 0 + m + 1 = m + 1 := by omega
        rw [hm]
        simp only [table1LoopE, hdg, exceptBind_error]
    | succ k ih =>
        intro m s r e hk hdg
        simp only [table1LoopE] at hk
        cases hdg1 : C.dgp 200 10 theta alpha 0 1 s with
        | error e1 => rw [hdg1, exceptBind_error] at hk; exact absurd hk (by simp)
        | ok ys =>
            rw [hdg1, exceptBind_ok] at hk
            cases hts : C.test ys.1 10 false with
            | error e2 => rw [hts, exceptBind_error] at hk; exact absurd hk (by simp)
            | ok result =>
                rw [hts, exceptBind_ok] at hk
                cases hlp : table1LoopE C theta alpha k ys.2 with
                | error e3 => rw [hlp, exceptBind_error] at hk; exact absurd hk (by simp)
                | ok rest =>
                    rw [hlp, exceptBind_ok] at hk
                    have hpair := Except.ok.inj hk
                    have hr2 : r.2 = rest.2 := by rw [← hpair]
                    have hrec := ih m ys.2 rest e hlp (by rw [← hr2]; exact hdg)
                    have hm : k + 1 + m + 1 = (k + m + 1) + 1 := by omega
                    rw [hm, table1LoopE_succ, hdg1]
                    simp only [exceptBind_ok]
                    rw [hts]
                    simp only [exceptBind_ok]
                    rw [hrec]
                    simp only [exceptBind_error]
  refine ⟨hdgp_prop, ?_, ?_⟩
  · intro k
    induction k with
    | zero =>
        intro m s r ys e hk hdg hts
        have hr : (0, s) = r := Except.ok.inj hk
        rw [← hr] at hdg
        have hm : 0 + m + 1 = m + 1 := by omega
        rw [hm]
        simp only [table1LoopE, hdg, exceptBind_ok, hts, exceptBind_error]
    | succ k ih =>
        intro m s r ys e hk hdg hts
        simp only [table1LoopE] at hk
        cases hdg1 : C.dgp 200 10 theta alpha 0 1 s with
        | error e1 => rw [hdg1, exceptBind_error] at hk; exact absurd hk (by simp)
        | ok ys1 =>
            rw [hdg1, exceptBind_ok] at hk
            cases hts1 : C.test ys1.1 10 false with
            | error e2 => rw [hts1, exceptBind_error] at hk; exact absurd hk (by simp)
            | ok result =>
                rw [hts1, exceptBind_ok] at hk
                cases hlp : table1LoopE C theta alpha k ys1.2 with
                | error e3 => rw [hlp, exceptBind_error] at hk; exact absurd hk (by simp)
                | ok rest =>
                    rw [hlp, exceptBind_ok] at hk
                    have hpair := Except.ok.inj hk
                    have hr2 : r.2 = rest.2 := by rw [← hpair]
                    have hrec := ih m ys1.2 rest ys e hlp
                      (by rw [← hr2]; exact hdg) hts
                    have hm : k + 1 + m + 1 = (k + m + 1) + 1 := by omega
                    rw [hm, table1LoopE_succ, hdg1]
                    simp only [exceptBind_ok]
                    rw [hts1]
                    simp only [exceptBind_ok]
                    rw [hrec]
                    simp only [exceptBind_error]
  · intro g g' e hth ha hcell
    exact simulate_table1_sizesE_not_ok C theta
      (fun g0 => table1RowE_not_ok C theta alpha e g' hcell alpha_values g0 ha)
      theta_values g hth

/-- Witness for claim C7: on a collaborator whose DGP always raises (and one
whose statistic evaluation always raises), the hypotheses hold at the very
first replication and the loop and the full report indeed propagate the
error. -/
theorem claim_C7_error_propagation_witness :
    (table1LoopE failDgpCollab 0 1 0 () = Except.ok (0, ()) ∧
     failDgpCollab.dgp 200 10 0 1 0 1 () = Except.error () ∧
     table1LoopE failDgpCollab 0 1 (0 + 999 + 1) () = Except.error ()) ∧
    (failTestCollab.dgp 200 10 0 1 0 1 () = Except.ok ([], ()) ∧
     failTestCollab.test [] 10 false = Except.error () ∧
     table1LoopE failTestCollab 0 1 (0 + 999 + 1) () = Except.error ()) ∧
    (table1CellE failDgpCollab 0 1 () = Except.error () ∧
     isOkE (simulate_table1_sizesE failDgpCollab theta_values ()) = false) := by
  refine ⟨⟨rfl, rfl, ?_⟩, ⟨rfl, rfl, ?_⟩, ⟨rfl, ?_⟩⟩
  · exact (claim_C7_error_propagation failDgpCollab 0 1).1 0 999 () (0, ()) ()
      rfl rfl
  · exact (claim_C7_error_propagation failTestCollab 0 1).2.1 0 999 () (0, ())
      ([], ()) () rfl rfl rfl
  · exact (claim_C7_error_propagation failDgpCollab 0 1).2.2 () () ()
      (by simp [theta_values]) (by simp [alpha_values]) rfl

end Sim
